import Mathlib

/-!
Shallow embedding of the ser-hex trace-capture system.

Components modelled (all from the repository sources):
* capture engine `CounterSubscriber` / `TraceStream`  — src/ser-hex/src/lib.rs
* TUI tree conversion and `Path` codec               — src/ser-hex-tui/src/main.rs
* viewer interval records / full spans               — src/ser-hex-viewer/src/main.rs
* frame-sampling `Tracer`                            — src/ser-hex-tracer/src/lib.rs

Conventions: bytes, ids and `usize`/`u64` values are `Nat`; Rust panics
(`unwrap`, asserts, out-of-bounds indexing) are `Option.none`; the span stack
(`Vec` with `push`/`last`/`pop` at the back) is stored top-first as a cons list;
the id-keyed `HashMap` is an association list (ids come from a monotone counter,
so keys are distinct and insertion position is immaterial for lookups).
-/

/-- Mirror of `Action<S>` (ser-hex/src/lib.rs:107-112): one recorded event.
During capture `S = Id`, so the `span` variant references a child by id. -/
inductive RAction (α : Type) where
  | read (n : Nat)
  | seek (n : Nat)
  | span (s : α)
deriving Repr, DecidableEq

/-- Resolved action tree: `Action<TreeSpan>` with `TreeSpan(ReadSpan { name, actions })`
(ser-hex/src/lib.rs:114-118, 193-195) flattened into the `span` constructor. -/
inductive ActionT where
  | read (n : Nat)
  | seek (n : Nat)
  | span (name : String) (actions : List ActionT)
deriving Repr

/-- `ReadSpan<Id>`: a span still under construction, children referenced by id. -/
structure SpanRec where
  name : String
  actions : List (RAction Nat)
deriving Repr, DecidableEq

/-- The id-keyed span map `HashMap<Id, ReadSpan<Id>>` as an association list. -/
abbrev SpanMap := List (Nat × SpanRec)

/-- `spans.get(&id)`: first entry with the given key. -/
def lookupSpan (m : SpanMap) (id : Nat) : Option SpanRec :=
  match m with
  | [] => none
  | (k, v) :: rest => if k = id then some v else lookupSpan rest id

/-- `spans.get_mut(&id).unwrap()` followed by the in-place mutation `f`;
`none` models the panic when the id is absent. -/
def updateSpan (m : SpanMap) (id : Nat) (f : SpanRec → SpanRec) : Option SpanMap :=
  match m with
  | [] => none
  | (k, v) :: rest =>
    if k = id then some ((k, f v) :: rest)
    else (updateSpan rest id f).map (fun r => (k, v) :: r)

/-- Total version of the same update (used to state what `updateSpan` produced). -/
def setSpan (m : SpanMap) (id : Nat) (f : SpanRec → SpanRec) : SpanMap :=
  match m with
  | [] => []
  | (k, v) :: rest =>
    if k = id then (k, f v) :: rest
    else (k, v) :: setSpan rest id f

/-- `spans.remove(&id)`: the removed value and the remaining map; `none` if absent. -/
def removeSpan (m : SpanMap) (id : Nat) : Option (SpanRec × SpanMap) :=
  match m with
  | [] => none
  | (k, v) :: rest =>
    if k = id then some (v, rest)
    else (removeSpan rest id).map (fun r => (r.1, (k, v) :: r.2))

/-- `Cursor<Vec<u8>>::write_all` at position `pos`: overwrites in place and extends
at the end, zero-padding any gap when `pos` is past the end (std `io::Cursor`
semantics; this is the cursor `CounterSubscriberInner.data` is written through). -/
def writeAt (buf : List Nat) (pos : Nat) (bytes : List Nat) : List Nat :=
  let padded := buf ++ List.replicate (pos - buf.length) 0
  padded.take pos ++ bytes ++ padded.drop (pos + bytes.length)

/-- `CounterSubscriberInner` (ser-hex/src/lib.rs:128-151): the mutex-guarded capture
state. The `data` cursor is split into buffer and position; the `metadata` map is
omitted (it only serves `current_span`, which no claim touches). -/
structure EngineState where
  startIndex : Nat
  dataBuf : List Nat
  dataPos : Nat
  lastId : Nat
  rootSpan : Option Nat
  spans : SpanMap
  stack : List Nat
deriving Repr, DecidableEq

/-- State of `CounterSubscriberInner::new` over an empty cursor (the incremental
capture mode): empty buffer at position 0, hence `start_index = 0`. -/
def initState : EngineState := ⟨0, [], 0, 0, none, [], []⟩

/-- `Subscriber::new_span` (ser-hex/src/lib.rs:280-295): allocate a fresh id and
register an empty span under it. -/
def newSpan (st : EngineState) (name : String) : Nat × EngineState :=
  let id := st.lastId + 1
  (id, { st with lastId := id, spans := (id, ⟨name, []⟩) :: st.spans })

/-- `Subscriber::enter` (ser-hex/src/lib.rs:317-329): if the stack is non-empty,
append `Action::Span(id)` to the span on top of the stack; otherwise set `id` as
the root span (unconditionally overwriting `root_span`). Then push `id`. -/
def enterSpan (st : EngineState) (id : Nat) : Option EngineState :=
  match st.stack with
  | [] => some { st with rootSpan := some id, stack := [id] }
  | current :: _ =>
    (updateSpan st.spans current
        (fun sp => { sp with actions := sp.actions ++ [RAction.span id] })).map
      (fun m => { st with spans := m, stack := id :: st.stack })

/-- `Subscriber::exit` (ser-hex/src/lib.rs:330-333): pop the stack and assert the
popped id matches; `none` models the `assert_eq!`/`unwrap` failures. -/
def exitSpan (st : EngineState) (id : Nat) : Option EngineState :=
  match st.stack with
  | [] => none
  | top :: rest => if top = id then some { st with stack := rest } else none

/-- `CounterSubscriber::read_action` (ser-hex/src/lib.rs:253-262): write the bytes
just read into the data cursor at its current position and push `Action::Read(n)`
onto the span on top of the stack. -/
def readAction (st : EngineState) (bytes : List Nat) : Option EngineState :=
  match st.stack with
  | [] => none
  | current :: _ =>
    (updateSpan st.spans current
        (fun sp => { sp with actions := sp.actions ++ [RAction.read bytes.length] })).map
      (fun m => { st with
        dataBuf := writeAt st.dataBuf st.dataPos bytes,
        dataPos := st.dataPos + bytes.length,
        spans := m })

/-- `CounterSubscriber::seek_action` (ser-hex/src/lib.rs:263-272): reposition the
data cursor to the seek target and push `Action::Seek(to)`; no bytes are appended. -/
def seekAction (st : EngineState) (tgt : Nat) : Option EngineState :=
  match st.stack with
  | [] => none
  | current :: _ =>
    (updateSpan st.spans current
        (fun sp => { sp with actions := sp.actions ++ [RAction.seek tgt] })).map
      (fun m => { st with dataPos := tgt, spans := m })

/-- `TreeSpan::into_tree` (ser-hex/src/lib.rs:196-212), resolving a list of
id-actions against the shrinking span map. The mutual recursion is fueled so the
definition is structural; the `span` arm performs one inlined `into_tree` step
(remove the child id, resolve its actions). `none` models the `unwrap` on a
missing id and, at fuel 0, a recursion the source could not perform either
(every step consumes a map entry or a list element). -/
def resolveActs : Nat → List (RAction Nat) → SpanMap → Option (List ActionT × SpanMap)
  | 0, _, _ => none
  | _ + 1, [], m => some ([], m)
  | fuel + 1, RAction.read n :: rest, m =>
    (resolveActs fuel rest m).map (fun p => (ActionT.read n :: p.1, p.2))
  | fuel + 1, RAction.seek n :: rest, m =>
    (resolveActs fuel rest m).map (fun p => (ActionT.seek n :: p.1, p.2))
  | fuel + 1, RAction.span cid :: rest, m =>
    match removeSpan m cid with
    | none => none
    | some (sp, m₁) =>
      match resolveActs fuel sp.actions m₁ with
      | none => none
      | some (children, m₂) =>
        match resolveActs fuel rest m₂ with
        | none => none
        | some (ts, m₃) => some (ActionT.span sp.name children :: ts, m₃)

/-- Fuel that always suffices for `resolveActs`: one unit per map entry's action
list element plus one per map entry plus slack. -/
def engineFuel (st : EngineState) : Nat :=
  (st.spans.map (fun p => p.2.actions.length)).sum + st.spans.length + st.spans.length + 1

/-- The `Trace` envelope (ser-hex/src/lib.rs:153-163); `root` is the
`Action::Span(tree)` produced at finalization. -/
structure TraceModel where
  data : List Nat
  startIndex : Nat
  root : ActionT

/-- `Drop for CounterSubscriberInner` (ser-hex/src/lib.rs:214-225): resolve the
root id into an owned tree and build the `Trace`; `none` models the `unwrap`s
(no root recorded, or a missing id during resolution). -/
def finalize (st : EngineState) : Option TraceModel :=
  match st.rootSpan with
  | none => none
  | some rootId =>
    match removeSpan st.spans rootId with
    | none => none
    | some (sp, m₁) =>
      match resolveActs (engineFuel st) sp.actions m₁ with
      | none => none
      | some (acts, _) =>
        some ⟨st.dataBuf, st.startIndex, ActionT.span sp.name acts⟩

/-- `Cursor<Vec<u8>>` as the underlying test stream: a read returns
`min n (len - pos)` bytes and advances the position. -/
structure CursorM where
  buf : List Nat
  pos : Nat
deriving Repr, DecidableEq

/-- `Read for Cursor`: the bytes delivered and the advanced cursor. -/
def cursorRead (c : CursorM) (n : Nat) : List Nat × CursorM :=
  let bytes := (c.buf.drop c.pos).take n
  (bytes, { c with pos := c.pos + bytes.length })

/-- `Seek for Cursor` with `SeekFrom::Start`: returns the new absolute offset. -/
def cursorSeekStart (c : CursorM) (tgt : Nat) : Nat × CursorM :=
  (tgt, { c with pos := tgt })

/-- The spec §8 concrete capture scenario over the stream `[1,2,3,4,5,6]`
(incremental mode, so the data cursor starts empty): span "read_stuff"
performs Read(1); nested span "read_nested_stuff" performs Read(4); then
Seek to 0 and a final Read(1). `enter_span` is `new_span` followed by `enter`;
the guard drop is `exit`; the session ends with finalization. -/
def scenarioTrace : Option TraceModel :=
  let c0 : CursorM := ⟨[1, 2, 3, 4, 5, 6], 0⟩
  let (id1, st0) := newSpan initState "read_stuff"
  do
  let st ← enterSpan st0 id1
  let (b1, c1) := cursorRead c0 1
  let st ← readAction st b1
  let (id2, st) := newSpan st "read_nested_stuff"
  let st ← enterSpan st id2
  let (b2, c2) := cursorRead c1 4
  let st ← readAction st b2
  let st ← exitSpan st id2
  let (o, c3) := cursorSeekStart c2 0
  let st ← seekAction st o
  let (b3, _c4) := cursorRead c3 1
  let st ← readAction st b3
  let st ← exitSpan st id1
  finalize st

/-- A session with two top-level spans, "A" then "B": both are entered while the
stack is empty, so both register as root. -/
def doubleRootRun : Option EngineState :=
  let (idA, st0) := newSpan initState "A"
  do
  let st ← enterSpan st0 idA
  let st ← exitSpan st idA
  let (idB, st) := newSpan st "B"
  let st ← enterSpan st idB
  exitSpan st idB

/-- Name of the span at an action-tree node, when it is a span. -/
def actionName : ActionT → Option String
  | .span n _ => some n
  | _ => none

/-- `<TraceStream as Read>::read` (ser-hex/src/lib.rs:99-105): the underlying
outcome `r` — the bytes a successful read delivered, or the I/O error — is
returned unchanged, and only a success is recorded (`Result::inspect` calls
`read_action`). The underlying stream's own state is independent of the engine
and not threaded here. -/
def tsReadOutcome (r : Except String (List Nat)) (st : EngineState) :
    Except String (List Nat) × Option EngineState :=
  match r with
  | .error e => (.error e, some st)
  | .ok bytes => (.ok bytes, readAction st bytes)

/-- `<TraceStream as Seek>::seek` (ser-hex/src/lib.rs:92-98), same shape. -/
def tsSeekOutcome (r : Except String Nat) (st : EngineState) :
    Except String Nat × Option EngineState :=
  match r with
  | .error e => (.error e, some st)
  | .ok tgt => (.ok tgt, seekAction st tgt)

theorem updateSpan_eq_setSpan (m : SpanMap) (id : Nat) (f : SpanRec → SpanRec)
    (v : SpanRec) (h : lookupSpan m id = some v) :
    updateSpan m id f = some (setSpan m id f) := by
  induction m with
  | nil => simp [lookupSpan] at h
  | cons kv rest ih =>
    obtain ⟨k, w⟩ := kv
    by_cases hk : k = id
    · simp [updateSpan, setSpan, hk]
    · simp [lookupSpan, hk] at h
      simp [updateSpan, setSpan, hk, ih h]

theorem lookupSpan_setSpan_self (m : SpanMap) (id : Nat) (f : SpanRec → SpanRec)
    (v : SpanRec) (h : lookupSpan m id = some v) :
    lookupSpan (setSpan m id f) id = some (f v) := by
  induction m with
  | nil => simp [lookupSpan] at h
  | cons kv rest ih =>
    obtain ⟨k, w⟩ := kv
    by_cases hk : k = id
    · simp [lookupSpan, setSpan, hk] at h ⊢
      exact congrArg f h
    · simp [lookupSpan, setSpan, hk] at h ⊢
      exact ih h

theorem lookupSpan_setSpan_ne (m : SpanMap) (id k : Nat) (f : SpanRec → SpanRec)
    (h : k ≠ id) : lookupSpan (setSpan m id f) k = lookupSpan m k := by
  induction m with
  | nil => simp [setSpan]
  | cons kv rest ih =>
    obtain ⟨k', w⟩ := kv
    by_cases hk : k' = id
    · subst hk
      simp [lookupSpan, setSpan, Ne.symm h]
    · simp [lookupSpan, setSpan, hk]
      split <;> simp [ih]

/-- C1 (counterexample). In the spec §8 scenario — stream `[1,2,3,4,5,6]`, outer
span "read_stuff" with Read(1), nested span "read_nested_stuff" with Read(4), a
Seek to 0 and a final Read(1) — the claimed data buffer `[1,2,3,4,5,1]` (the
capture-order concatenation of all bytes read) is NOT what the engine produces:
`seek_action` repositions the data cursor, so the final Read(1) overwrites
position 0 instead of appending. -/
theorem c1_scenario_data_counterexample :
    scenarioTrace.map TraceModel.data ≠ some [1, 2, 3, 4, 5, 1] := by decide

/-- C1 (amended). The scenario's trace has data `[1,2,3,4,5]`: each read's bytes
are written into the data cursor at its current position and a seek repositions
that cursor, so the data buffer is a positional mirror of the bytes read, not
their capture-order concatenation; the final Read(1) after Seek(0) rewrites
byte 0 with the same value `1`. -/
theorem c1_scenario_data :
    scenarioTrace.map TraceModel.data = some [1, 2, 3, 4, 5] := by decide

/-- C2 (counterexample). A session whose two top-level spans both register as
root does not fail: the whole run (including finalization) succeeds, and the
engine silently replaces the root with the second span (id 2, named "B"). -/
theorem c2_double_root_counterexample :
    doubleRootRun.map EngineState.rootSpan = some (some 2) ∧
    ((doubleRootRun.bind finalize).bind (fun t => actionName t.root)) = some "B" := by
  decide

/-- C2 (amended). `Subscriber::enter`: with a non-empty stack, `Action::Span(id)`
is appended to the action list of the span on top of the stack and `id` is
pushed; with an empty stack, `root_span` is unconditionally overwritten with
`id` (a second root registration is not detected — the previous root is
silently replaced, as the arbitrary `st.rootSpan` here shows). -/
theorem c2_enter_semantics (st : EngineState) (id : Nat) :
    (st.stack = [] → enterSpan st id = some { st with rootSpan := some id, stack := [id] }) ∧
    (∀ top rest sp, st.stack = top :: rest → lookupSpan st.spans top = some sp →
      enterSpan st id = some { st with
        spans := setSpan st.spans top
          (fun s => { s with actions := s.actions ++ [RAction.span id] }),
        stack := id :: st.stack }) := by
  constructor
  · intro h
    simp [enterSpan, h]
  · intro top rest sp h hl
    simp [enterSpan, h, updateSpan_eq_setSpan _ _ _ _ hl]

/-- Witness for C2's theorem: both branches at concrete states — an empty stack
(root 1 already recorded, overwritten by 5) and a stack `[1]` (span 5 appended
to span 1's actions). -/
theorem c2_enter_semantics_witness :
    enterSpan ⟨0, [], 0, 2, some 1, [(1, ⟨"A", []⟩)], []⟩ 5 =
      some ⟨0, [], 0, 2, some 5, [(1, ⟨"A", []⟩)], [5]⟩ ∧
    enterSpan ⟨0, [], 0, 2, some 1, [(1, ⟨"A", []⟩)], [1]⟩ 5 =
      some ⟨0, [], 0, 2, some 1, [(1, ⟨"A", [RAction.span 5]⟩)], [5, 1]⟩ := by
  refine ⟨(c2_enter_semantics _ 5).1 rfl, ?_⟩
  have h := (c2_enter_semantics ⟨0, [], 0, 2, some 1, [(1, ⟨"A", []⟩)], [1]⟩ 5).2
    1 [] ⟨"A", []⟩ rfl rfl
  simpa [setSpan] using h

/-- C9. I/O mirroring of `TraceStream`: an underlying read/seek error is returned
unchanged and the engine records nothing (its state is untouched); a successful
read of `bytes` appends those bytes to the data cursor at its position and
records `Action::Read(bytes.length)` on the innermost span — including
`Action::Read(0)` when `bytes = []` (EOF); a successful seek records
`Action::Seek(tgt)` and moves the data cursor. -/
theorem c9_io_mirroring (e : String) (st : EngineState) (bytes : List Nat)
    (tgt top : Nat) (rest : List Nat) (sp : SpanRec)
    (hs : st.stack = top :: rest) (hl : lookupSpan st.spans top = some sp) :
    tsReadOutcome (Except.error e) st = (Except.error e, some st) ∧
    tsSeekOutcome (Except.error e) st = (Except.error e, some st) ∧
    tsReadOutcome (Except.ok bytes) st = (Except.ok bytes,
      some { st with
        dataBuf := writeAt st.dataBuf st.dataPos bytes,
        dataPos := st.dataPos + bytes.length,
        spans := setSpan st.spans top
          (fun s => { s with actions := s.actions ++ [RAction.read bytes.length] }) }) ∧
    tsSeekOutcome (Except.ok tgt) st = (Except.ok tgt,
      some { st with
        dataPos := tgt,
        spans := setSpan st.spans top
          (fun s => { s with actions := s.actions ++ [RAction.seek tgt] }) }) := by
  refine ⟨rfl, rfl, ?_, ?_⟩
  · simp [tsReadOutcome, readAction, hs, updateSpan_eq_setSpan _ _ _ _ hl]
  · simp [tsSeekOutcome, seekAction, hs, updateSpan_eq_setSpan _ _ _ _ hl]

/-- Witness for C9's theorem at a concrete state with one open span and an EOF
read (`bytes = []`), exhibiting the recorded `Action::Read(0)`. -/
theorem c9_io_mirroring_witness :
    tsReadOutcome (Except.error "io") ⟨0, [], 0, 1, some 1, [(1, ⟨"root", []⟩)], [1]⟩ =
      (Except.error "io", some ⟨0, [], 0, 1, some 1, [(1, ⟨"root", []⟩)], [1]⟩) ∧
    tsReadOutcome (Except.ok []) ⟨0, [], 0, 1, some 1, [(1, ⟨"root", []⟩)], [1]⟩ =
      (Except.ok [], some ⟨0, [], 0, 1, some 1, [(1, ⟨"root", [RAction.read 0]⟩)], [1]⟩) := by
  have h := c9_io_mirroring "io" ⟨0, [], 0, 1, some 1, [(1, ⟨"root", []⟩)], [1]⟩
    [] 0 1 [] ⟨"root", []⟩ rfl rfl
  exact ⟨h.1, by simpa [setSpan, writeAt] using h.2.2.1⟩

/-- Per-level width of the `Path` codec (ser-hex-tui/src/main.rs:47-55): 1 byte
if `max == 0`, else `max.ilog2() / 8 + 1` bytes (`ilog2` is `Nat.log2`). -/
def numBytes (max : Nat) : Nat := if max = 0 then 1 else Nat.log2 max / 8 + 1

/-- The trailing `k` bytes of `n.to_be_bytes()`: big-endian, most significant
first, truncating `n` to its low `8 * k` bits. -/
def toBE (k n : Nat) : List Nat := (List.range k).reverse.map (fun i => n / 256 ^ i % 256)

/-- `Path::push`: append the minimal-width big-endian encoding of `n`. -/
def pushPath (path : List Nat) (max n : Nat) : List Nat := path ++ toBE (numBytes max) n

/-- Big-endian value of a byte list — the `rev().enumerate()` shift-or loop of
`Path::split_next` (ser-hex-tui/src/main.rs:68-82). -/
def beVal (bs : List Nat) : Nat := bs.foldl (fun acc b => acc * 256 + b) 0

/-- `Path::split_next`: decode one index of width `numBytes max` from the front;
`none` models the slice-index panic on a path shorter than the width. -/
def splitNext (max : Nat) (bytes : List Nat) : Option (Nat × List Nat) :=
  let k := numBytes max
  if k ≤ bytes.length then some (beVal (bytes.take k), bytes.drop k) else none

/-- Encode a descent: push one level per `(max, n)` pair, starting from the
empty path (the spec §4.4 `encode`). -/
def encodePath (ps : List (Nat × Nat)) : List Nat :=
  ps.foldl (fun path p => pushPath path p.1 p.2) []

/-- Decode against the same `max` sequence by repeated `split_next`
(the spec §4.4 `decode`). -/
def decodePath (maxes : List Nat) (bytes : List Nat) : Option (List Nat) :=
  match maxes with
  | [] => some []
  | max :: rest => do
    let (n, b) ← splitNext max bytes
    let ns ← decodePath rest b
    some (n :: ns)

theorem toBE_length (k n : Nat) : (toBE k n).length = k := by
  simp [toBE]

theorem toBE_succ (k n : Nat) : toBE (k + 1) n = n / 256 ^ k % 256 :: toBE k n := by
  simp [toBE, List.range_succ]

theorem beVal_foldl (bs : List Nat) (a : Nat) :
    bs.foldl (fun acc b => acc * 256 + b) a = a * 256 ^ bs.length + beVal bs := by
  induction bs generalizing a with
  | nil => simp [beVal]
  | cons b bs ih =>
    have hb : beVal (b :: bs) = b * 256 ^ bs.length + beVal bs := by
      simpa [beVal] using ih b
    simp only [List.foldl_cons, ih (a * 256 + b), hb, List.length_cons]
    ring

theorem beVal_toBE (k n : Nat) : beVal (toBE k n) = n % 256 ^ k := by
  induction k with
  | zero => simp [toBE, beVal, Nat.mod_one]
  | succ k ih =>
    have : beVal (n / 256 ^ k % 256 :: toBE k n)
        = (n / 256 ^ k % 256) * 256 ^ k + beVal (toBE k n) := by
      simpa [beVal, toBE_length] using beVal_foldl (toBE k n) (n / 256 ^ k % 256)
    rw [toBE_succ, this, ih, Nat.mod_pow_succ]
    ring

theorem lt_pow_numBytes {n max : Nat} (h : n < max) : n < 256 ^ numBytes max := by
  have hmax : max ≠ 0 := by omega
  have h1 : max < 2 ^ (Nat.log 2 max + 1) := Nat.lt_pow_succ_log_self (by norm_num) max
  have hq : Nat.log 2 max + 1 ≤ 8 * (Nat.log 2 max / 8) + 8 := by omega
  have h2 : (2 : Nat) ^ (Nat.log 2 max + 1) ≤ 2 ^ (8 * (Nat.log 2 max / 8) + 8) :=
    Nat.pow_le_pow_right (by norm_num) hq
  have h3 : (2 : Nat) ^ (8 * (Nat.log 2 max / 8) + 8) = 256 ^ (Nat.log 2 max / 8 + 1) := by
    rw [show (256 : Nat) = 2 ^ 8 by norm_num, ← Nat.pow_mul]
    ring_nf
  have : n < 256 ^ (Nat.log 2 max / 8 + 1) := by
    calc n < max := h
    _ < 2 ^ (Nat.log 2 max + 1) := h1
    _ ≤ 2 ^ (8 * (Nat.log 2 max / 8) + 8) := h2
    _ = 256 ^ (Nat.log 2 max / 8 + 1) := h3
  simpa [numBytes, hmax, Nat.log2_eq_log_two] using this

theorem splitNext_toBE {n max : Nat} (rest : List Nat) (h : n < max) :
    splitNext max (toBE (numBytes max) n ++ rest) = some (n, rest) := by
  have hlen : (toBE (numBytes max) n).length = numBytes max := toBE_length _ _
  have htake : (toBE (numBytes max) n ++ rest).take (numBytes max) = toBE (numBytes max) n := by
    have h0 := List.take_left (toBE (numBytes max) n) rest
    rwa [hlen] at h0
  have hdrop : (toBE (numBytes max) n ++ rest).drop (numBytes max) = rest := by
    have h0 := List.drop_left (toBE (numBytes max) n) rest
    rwa [hlen] at h0
  have hval : beVal (toBE (numBytes max) n) = n := by
    rw [beVal_toBE, Nat.mod_eq_of_lt (lt_pow_numBytes h)]
  simp [splitNext, htake, hdrop, hval, hlen]

theorem encodePath_cons_aux (ps : List (Nat × Nat)) (acc : List Nat) :
    ps.foldl (fun path p => pushPath path p.1 p.2) acc
      = acc ++ ps.foldl (fun path p => pushPath path p.1 p.2) [] := by
  induction ps generalizing acc with
  | nil => simp
  | cons p ps ih =>
    rw [List.foldl_cons, List.foldl_cons, ih, ih (pushPath [] p.1 p.2)]
    simp [pushPath, List.append_assoc]

/-- C5. Path round-trip: for any descent given as `(max, n)` pairs with
`0 ≤ n < max`, pushing each level with `Path::push` and then decoding the
resulting byte string against the same `max` sequence with `Path::split_next`
returns exactly the original child indices. -/
theorem c5_path_round_trip (ps : List (Nat × Nat)) (h : ∀ p ∈ ps, p.2 < p.1) :
    decodePath (ps.map Prod.fst) (encodePath ps) = some (ps.map Prod.snd) := by
  induction ps with
  | nil => simp [decodePath, encodePath]
  | cons p ps ih =>
    have hp : p.2 < p.1 := h p (List.mem_cons_self _ _)
    have hrest : ∀ q ∈ ps, q.2 < q.1 := fun q hq => h q (List.mem_cons_of_mem _ hq)
    have henc : encodePath (p :: ps) = toBE (numBytes p.1) p.2 ++ encodePath ps := by
      simp only [encodePath, List.foldl_cons]
      rw [encodePath_cons_aux]
      simp [pushPath]
    rw [List.map_cons, List.map_cons, henc]
    simp [decodePath, splitNext_toBE _ hp, ih hrest]

/-- Witness for C5's theorem on the descent `[(12,2), (300,270), (256,255)]`
(widths 1, 2 and 2 bytes). -/
theorem c5_path_round_trip_witness :
    decodePath [12, 300, 256] (encodePath [(12, 2), (300, 270), (256, 255)])
      = some [2, 270, 255] :=
  c5_path_round_trip [(12, 2), (300, 270), (256, 255)] (by decide)

/-- `TraceNode` (ser-hex-tui/src/main.rs:31-38): path identifier, byte range
(`start`/`end` — here `stop`), the node's action and its converted children. -/
structure TNode where
  ident : List Nat
  start : Nat
  stop : Nat
  act : ActionT
  children : List TNode
deriving Repr

mutual
/-- `TraceTree::new::convert` (ser-hex-tui/src/main.rs:86-142). Faithful to the
source, including its `Seek` arm: there the node is built only after
`*offset = *s`, so the seek node's `start` and `end` are both the seek target
`s` (the old offset is discarded). Returns the node, the updated offset, and
the nodes-map entries accumulated in insertion order. -/
def convert (offset : Nat) (a : ActionT) (nodes : List (List Nat × TNode))
    (path : List Nat) : TNode × Nat × List (List Nat × TNode) :=
  match a with
  | .read r =>
    let node : TNode := ⟨path, offset, offset + r, a, []⟩
    (node, offset + r, nodes ++ [(path, node)])
  | .seek s =>
    let node : TNode := ⟨path, s, s, a, []⟩
    (node, s, nodes ++ [(path, node)])
  | .span _ acts =>
    let res := convertList offset acts nodes path acts.length 0
    let node : TNode := ⟨path, offset, res.2.1, a, res.1⟩
    (node, res.2.1, res.2.2 ++ [(path, node)])
termination_by sizeOf a

/-- The `for (i, child) in s.0.actions.iter().enumerate()` loop of `convert`:
each child is converted at path `path.push(len, i)`, threading the offset and
the nodes map. -/
def convertList (offset : Nat) (acts : List ActionT) (nodes : List (List Nat × TNode))
    (path : List Nat) (len i : Nat) : List TNode × Nat × List (List Nat × TNode) :=
  match acts with
  | [] => ([], offset, nodes)
  | a :: rest =>
    let r1 := convert offset a nodes (pushPath path len i)
    let r2 := convertList r1.2.1 rest r1.2.2 path len (i + 1)
    (r1.1 :: r2.1, r2.2)
termination_by sizeOf acts
end

/-- `FullAction` (ser-hex-viewer/src/main.rs:203-208): `read` carries the byte
range, `seek` carries `(from, to)`, `span` the converted subtree (with
`FullTreeSpan { name, actions }` flattened in). -/
inductive FullActionM where
  | read (start stop : Nat)
  | seek (a b : Nat)
  | span (name : String) (actions : List FullActionM)
deriving Repr

/-- `build_full_spans` (ser-hex-viewer/src/main.rs:86-107) over an action list:
`Read` takes `[index, index + size)`; `Seek` records `(start := old index,
new index)` and moves the index; `Span` recurses. Returns the final index and
the converted actions. -/
def buildFullActs : Nat → List ActionT → Nat × List FullActionM
  | idx, [] => (idx, [])
  | idx, .read n :: rest =>
    let r := buildFullActs (idx + n) rest
    (r.1, .read idx (idx + n) :: r.2)
  | idx, .seek s :: rest =>
    let r := buildFullActs s rest
    (r.1, .seek idx s :: r.2)
  | idx, .span nm acts :: rest =>
    let c := buildFullActs idx acts
    let r := buildFullActs c.1 rest
    (r.1, .span nm c.2 :: r.2)
termination_by _ acts => sizeOf acts

/-- C3 (divergence at the failing input `Span ["Read 5", "Seek 2"]` from offset 0).
The TUI's `convert` gives the seek node the range `[2, 2)` — both `start` and
`end` are the seek target, because the `Seek` arm builds the node after
`*offset = *s` — whereas the claim (and the viewer's `build_full_spans`, which
records `FullAction::Seek(5, 2)`, and the TUI's own `"Seek (start -> end)"`
rendering) require the range `[old_offset, 2) = [5, 2)`. -/
theorem c3_seek_range_divergence :
    ((convert 0 (ActionT.span "s" [ActionT.read 5, ActionT.seek 2]) [] []).1).children.map
        (fun c => (c.start, c.stop)) = [(0, 5), (2, 2)] ∧
    (buildFullActs 0 [ActionT.read 5, ActionT.seek 2]).2
      = [FullActionM.read 0 5, FullActionM.seek 5 2] := by
  constructor
  · simp [convert, convertList, pushPath, numBytes, toBE, Nat.log2]
  · simp [buildFullActs]

/-- C4 (divergence at the failing input `Span ["Seek 7", "Read 1"]` from offset 0).
The span's computed range is `[0, 8)` (offset at entry to offset at exit), but
its first child — the seek node — gets range `[7, 7)` under `convert`'s `Seek`
arm, so the claimed equality `span range = [first child's start, last child's
end]` fails on the start: `0 ≠ 7`. (The end always agrees: `8 = 8`.) -/
theorem c4_span_range_divergence :
    ((convert 0 (ActionT.span "s" [ActionT.seek 7, ActionT.read 1]) [] []).1).start = 0 ∧
    ((convert 0 (ActionT.span "s" [ActionT.seek 7, ActionT.read 1]) [] []).1).children.map
        (fun c => (c.start, c.stop)) = [(7, 7), (7, 8)] ∧
    ((convert 0 (ActionT.span "s" [ActionT.seek 7, ActionT.read 1]) [] []).1).stop = 8 := by
  refine ⟨?_, ?_, ?_⟩ <;> simp [convert, convertList, pushPath, numBytes, toBE, Nat.log2]

/-- `FlatSpan` (ser-hex-viewer/src/main.rs:188-193): byte range, owning span's
name, and the path of action indices leading to the node. -/
structure FlatSpanM where
  start : Nat
  stop : Nat
  name : String
  path : List Nat
deriving Repr, DecidableEq

/-- `collect_spans` (ser-hex-viewer/src/main.rs:57-85) over the action list of
the enclosing span named `name`: a `Read` emits one record with the enclosing
span's name and path `pfx ++ [i]`, then advances the offset; a `Seek` only sets
the offset (its commented-out record emission is dead code); a `Span` recurses
with its own name and the extended path. `i` is the index of the current action
within the enclosing span, `idx` the running byte offset. Returns the final
offset and the records in emission order. -/
def collectActs : String → List Nat → Nat → Nat → List ActionT → Nat × List FlatSpanM
  | _, _, _, idx, [] => (idx, [])
  | name, pfx, i, idx, .read n :: rest =>
    let r := collectActs name pfx (i + 1) (idx + n) rest
    (r.1, ⟨idx, idx + n, name, pfx ++ [i]⟩ :: r.2)
  | name, pfx, i, idx, .seek s :: rest => collectActs name pfx (i + 1) s rest
  | name, pfx, i, idx, .span nm acts :: rest =>
    let c := collectActs nm (pfx ++ [i]) 0 idx acts
    let r := collectActs name pfx (i + 1) c.1 rest
    (r.1, c.2 ++ r.2)
termination_by _ _ _ _ acts => sizeOf acts

/-- Number of `Read` nodes in an action list (counting through nested spans). -/
def numReadsList : List ActionT → Nat
  | [] => 0
  | .read _ :: rest => 1 + numReadsList rest
  | .seek _ :: rest => numReadsList rest
  | .span _ acts :: rest => numReadsList acts + numReadsList rest
termination_by acts => sizeOf acts

/-- Number of `Span` nodes in an action list (counting through nested spans). -/
def numSpansList : List ActionT → Nat
  | [] => 0
  | .read _ :: rest => numSpansList rest
  | .seek _ :: rest => numSpansList rest
  | .span _ acts :: rest => 1 + numSpansList acts + numSpansList rest
termination_by acts => sizeOf acts

/-- `IntervalTree::query_point` modelled by the contract of the external
`intervaltree` crate: the records whose half-open byte range contains the
point. -/
def queryPoint (p : Nat) (rs : List FlatSpanM) : List FlatSpanM :=
  rs.filter (fun r => decide (r.start ≤ p ∧ p < r.stop))

/-- C7 (counterexample). On the tree `read_stuff [Read 1, Span read_nested_stuff
[Read 4]]` the walk emits 2 records while the tree has 2 Read nodes and 1 Span
node: it does NOT emit one record per Read node and per Span node (spans get no
record of their own). -/
theorem c7_one_record_per_node_counterexample :
    ¬ ((collectActs "read_stuff" [] 0 0
          [ActionT.read 1, ActionT.span "read_nested_stuff" [ActionT.read 4]]).2.length
        = numReadsList [ActionT.read 1, ActionT.span "read_nested_stuff" [ActionT.read 4]]
          + numSpansList [ActionT.read 1, ActionT.span "read_nested_stuff" [ActionT.read 4]]) := by
  simp [collectActs, numReadsList, numSpansList]

/-- C7 (amended). The depth-first walk emits exactly one interval record per
`Read` node — tagged with the byte range of that read, the name of its
innermost enclosing span, and its path — and no record for `Span` or `Seek`
nodes, whatever the enclosing name, path prefix, index and offset. -/
theorem c7_one_record_per_read (acts : List ActionT) (name : String)
    (pfx : List Nat) (i idx : Nat) :
    (collectActs name pfx i idx acts).2.length = numReadsList acts := by
  induction acts using numReadsList.induct generalizing name pfx i idx with
  | case1 => simp [collectActs, numReadsList]
  | case2 n rest ih => simp [collectActs, numReadsList, ih]; omega
  | case3 s rest ih => simp [collectActs, numReadsList, ih]
  | case4 nm acts rest ih1 ih2 => simp [collectActs, numReadsList, ih1, ih2]

/-- The C8 trace tree: `read_stuff` performs Read(1), enters
`read_nested_stuff` which performs Read(4) and exits, then Seek(0) and a final
Read(1). Offsets: outer Read `[0,1)`, nested Read `[1,5)`, final Read `[0,1)`. -/
def c8Tree : List ActionT :=
  [ActionT.read 1, ActionT.span "read_nested_stuff" [ActionT.read 4],
   ActionT.seek 0, ActionT.read 1]

/-- C8. A point query at offset 2 — a byte covered by the nested Read(4) —
returns exactly the record of that read, attributed to `read_nested_stuff`
(not merely to the outer `read_stuff` span). -/
theorem c8_nested_attribution :
    queryPoint 2 (collectActs "read_stuff" [] 0 0 c8Tree).2
      = [⟨1, 5, "read_nested_stuff", [1, 0]⟩] := by
  have h : (collectActs "read_stuff" [] 0 0 c8Tree).2
      = [⟨0, 1, "read_stuff", [0]⟩, ⟨1, 5, "read_nested_stuff", [1, 0]⟩,
         ⟨0, 1, "read_stuff", [3]⟩] := by
    simp [c8Tree, collectActs]
  rw [h]
  simp [queryPoint]

/-- A captured stack frame (`backtrace::Frame`): instruction pointer and symbol
address; the trimming comparisons use `symbol_address()`, naming uses `ip()`. -/
structure Fr where
  ip : Nat
  sym : Nat
deriving Repr, DecidableEq

/-- `Op` (ser-hex-tracer/src/lib.rs:190-193): one read sample — byte count plus
the captured stack, stored outermost-first (the source reverses it on capture). -/
structure OpM where
  count : Nat
  stack : List Fr
deriving Repr, DecidableEq

/-- The `find common frames at bottom of stack` loop (ser-hex-tracer/src/
lib.rs:137-150): starting from `k`, keep advancing while the first sample has a
frame at position `k` and every sample agrees on its symbol address there. The
loop is fueled (it stops at the first sample's length at the latest). -/
def startLoop (ops : List OpM) (first : List Fr) : Nat → Nat → Nat
  | 0, k => k
  | fuel + 1, k =>
    match first.get? k with
    | none => k
    | some f =>
      if ∀ op ∈ ops, ((op.stack.get? k).map Fr.sym) = some f.sym
      then startLoop ops first fuel (k + 1) else k

/-- `skip_start`: 0 when there are no samples, else the common-prefix loop over
the first sample's stack. -/
def skipStart (ops : List OpM) : Nat :=
  match ops.head? with
  | none => 0
  | some first => startLoop ops first.stack (first.stack.length + 1) 0

/-- The `find common frames at top of stack` loop (ser-hex-tracer/src/
lib.rs:152-169): with the first `s` frames dropped from every sample, keep
advancing `e` while `len - (e + 1)` is in range for the first trimmed sample
(`checked_sub`) and every trimmed sample has a frame with the same symbol
address at its own `len - (e + 1)`. -/
def endLoop (ops : List OpM) (s : Nat) (firstT : List Fr) : Nat → Nat → Nat
  | 0, e => e
  | fuel + 1, e =>
    match firstT.get? (firstT.length - (e + 1)) with
    | none => e
    | some f =>
      if e + 1 ≤ firstT.length ∧
          ∀ op ∈ ops, e + 1 ≤ (op.stack.drop s).length ∧
            (((op.stack.drop s).get? ((op.stack.drop s).length - (e + 1))).map Fr.sym)
              = some f.sym
      then endLoop ops s firstT fuel (e + 1) else e

/-- `skip_end`: 0 when there are no samples, else the common-suffix loop over
the first sample's stack with the prefix dropped. -/
def skipEnd (ops : List OpM) (s : Nat) : Nat :=
  match ops.head? with
  | none => 0
  | some first => endLoop ops s (first.stack.drop s) ((first.stack.drop s).length + 1) 0

/-- The slice `op.stack[skip_start..(op.stack.len() - skip_end)]` that
`Tracer::trace` feeds into tree insertion for each sample. -/
def retained (op : OpM) (s e : Nat) : List Fr :=
  (op.stack.take (op.stack.length - e)).drop s

/-- The frames every sample retains after common-frame trimming. -/
def trimmedStacks (ops : List OpM) : List (List Fr) :=
  let s := skipStart ops
  let e := skipEnd ops s
  ops.map (fun op => retained op s e)

/-- `TreeNode`/`Frame` of `Tracer::trace` (ser-hex-tracer/src/lib.rs:87-135):
a frame node carries the symbol address (`id`), the instruction pointer and its
children; a read leaf carries the byte count. -/
inductive TNodeM where
  | frame (id ip : Nat) (children : List TNodeM)
  | read (count : Nat)
deriving Repr

/-- `Frame::insert` (ser-hex-tracer/src/lib.rs:117-134): at the end of the
path append a `Read` leaf; otherwise descend into the last child if it is a
frame with the same symbol address, else push a fresh frame node and descend
into it. The `read` arm is unreachable (insert is only invoked on frames). -/
def insertT : TNodeM → List Fr → Nat → TNodeM
  | .frame id ip cs, [], c => .frame id ip (cs ++ [.read c])
  | .frame id ip cs, f :: rest, c =>
    match cs.getLast? with
    | some (.frame cid cip ccs) =>
      if cid = f.sym then
        .frame id ip (cs.dropLast ++ [insertT (.frame cid cip ccs) rest c])
      else
        .frame id ip (cs ++ [insertT (.frame f.sym f.ip []) rest c])
    | _ => .frame id ip (cs ++ [insertT (.frame f.sym f.ip []) rest c])
  | .read c0, _, _ => .read c0

mutual
/-- `TreeNode::convert` (ser-hex-tracer/src/lib.rs:92-101): frames become spans
named by symbolization (modelled as the pure function `symf ip id`, the
process-wide address-keyed cache being memoization of it), reads become reads. -/
def convertT (symf : Nat → Nat → String) : TNodeM → ActionT
  | .read c => .read c
  | .frame id ip cs => .span (symf ip id) (convertTList symf cs)
termination_by t => sizeOf t

/-- `convert` mapped over a frame's children. -/
def convertTList (symf : Nat → Nat → String) : List TNodeM → List ActionT
  | [] => []
  | t :: rest => convertT symf t :: convertTList symf rest
termination_by ts => sizeOf ts
end

/-- `Tracer` state (ser-hex-tracer/src/lib.rs:16-21): accumulated data, one op
per read sample, and the configured `skip_frames` (irrelevant to `trace`). -/
structure TracerM where
  data : List Nat
  ops : List OpM
  skipFrames : Nat

/-- `Tracer::trace` (ser-hex-tracer/src/lib.rs:86-187): trim the common prefix
and suffix, seed a root frame node from the first sample's first retained frame
(`stack[0]` — `none` models its panic when that slice is empty), insert every
sample's retained stack, and wrap the converted tree in a `Span` named "root".
With no samples the root map is `None` and the action list is empty. -/
def tracerTrace (symf : Nat → Nat → String) (t : TracerM) : Option TraceModel :=
  let s := skipStart t.ops
  let e := skipEnd t.ops s
  match t.ops.head? with
  | none => some ⟨t.data, 0, ActionT.span "root" []⟩
  | some first =>
    match (retained first s e).get? 0 with
    | none => none
    | some f0 =>
      let root0 := TNodeM.frame f0.sym f0.ip []
      let root := t.ops.foldl (fun r op => insertT r (retained op s e) op.count) root0
      some ⟨t.data, 0, ActionT.span "root" [convertT symf root]⟩

/-- C6. Common-frame trimming: for the two samples `[A,B,C,D]` and `[A,B,E,D]`
(arbitrary addresses with `C ≠ E`, arbitrary byte counts), the engine computes
shared prefix `[A,B]` and — after its removal — shared suffix `[D]`, and the
retained frames are exactly `[C]` for the first sample and `[E]` for the
second. -/
theorem c6_frame_trimming (a b c d e cnt1 cnt2 : Nat) (h : c ≠ e) :
    trimmedStacks [⟨cnt1, [⟨a, a⟩, ⟨b, b⟩, ⟨c, c⟩, ⟨d, d⟩]⟩,
                   ⟨cnt2, [⟨a, a⟩, ⟨b, b⟩, ⟨e, e⟩, ⟨d, d⟩]⟩]
      = [[⟨c, c⟩], [⟨e, e⟩]] := by
  simp [trimmedStacks, skipStart, skipEnd, startLoop, endLoop, retained, Ne.symm h]

/-- Witness for C6's theorem at addresses A=1, B=2, C=3, D=4, E=5. -/
theorem c6_frame_trimming_witness :
    trimmedStacks [⟨9, [⟨1, 1⟩, ⟨2, 2⟩, ⟨3, 3⟩, ⟨4, 4⟩]⟩,
                   ⟨7, [⟨1, 1⟩, ⟨2, 2⟩, ⟨5, 5⟩, ⟨4, 4⟩]⟩]
      = [[⟨3, 3⟩], [⟨5, 5⟩]] :=
  c6_frame_trimming 1 2 3 4 5 9 7 (by decide)

/-- C10. `trace()` on a tracer that never recorded a read (no data, no ops)
succeeds and returns the empty-data trace with `start_index = 0` and a root
`Span` named "root" with an empty action list. -/
theorem c10_empty_trace (symf : Nat → Nat → String) (sk : Nat) :
    tracerTrace symf ⟨[], [], sk⟩ = some ⟨[], 0, ActionT.span "root" []⟩ := rfl
